import Mathlib

/-!
Verification of the AGU RAG chatbot core (api.py and scripts/embed_data.py)
against its natural-language specification.  The Python functions are
shallowly embedded: strings are Lean `String`s (sequences of unicode code
points), fallible request handlers return `Except`, and the external model
collaborators (embedder, generator, translators, vector store) are
structures of abstract functions, `Option`-wrapped exactly where the source
holds them in nullable globals.
-/

namespace AguRag

/-! ## String helpers mirroring the Python primitives used by api.py -/

/-- First character index at which `needle` occurs as a contiguous substring
of the second argument; `none` if it never occurs.  Mirrors Python's
`str.find` (which returns `-1` for absence). -/
def findSub (needle : List Char) : List Char → Option Nat
  | [] => if List.isPrefixOf needle [] then some 0 else none
  | c :: t =>
    if List.isPrefixOf needle (c :: t) then some 0
    else (findSub needle t).map (fun i => i + 1)

/-- The marker occurs at character position `i` of `hay`. -/
def occursAt (needle hay : List Char) (i : Nat) : Prop :=
  List.isPrefixOf needle (hay.drop i) = true

instance (needle hay : List Char) (i : Nat) : Decidable (occursAt needle hay i) := by
  unfold occursAt
  infer_instance

/-- Python's `str.lower`, per code point (lower-casing is what feeds the
ASCII keyword tokenizer and the ASCII marker search, so ASCII lowering is
the behaviour that matters). -/
def pyLower (s : String) : String := String.mk (s.toList.map Char.toLower)

/-- Python's `str.strip()`: remove leading and trailing whitespace. -/
def pyStrip (s : String) : String :=
  String.mk
    (((s.toList.dropWhile Char.isWhitespace).reverse.dropWhile
        Char.isWhitespace).reverse)

/-- Python's `s[n:]`, in characters. -/
def pyDrop (s : String) (n : Nat) : String := String.mk (s.toList.drop n)

/-- Python's `s[:-n]` (for `0 < n ≤ len s`), in characters. -/
def pyDropRight (s : String) (n : Nat) : String :=
  String.mk (s.toList.take (s.toList.length - n))

/-- The first character of a string, if any (`s.startswith(c)` for a
one-character `c` is `firstChar s = some c`). -/
def firstChar (s : String) : Option Char := s.toList.head?

/-- The last character of a string, if any. -/
def lastChar (s : String) : Option Char := s.toList.getLast?

/-! ## api.py: detect_lang (lines 220-272) -/

/-- The fixed English keyword set of `detect_lang` (api.py lines 232-261). -/
def english_keywords : List String :=
  ["who", "what", "where", "when", "why", "how",
   "is", "are", "do", "does", "did", "can", "could", "should", "would",
   "have", "has", "had",
   "university", "program", "mobility", "internship", "study",
   "traineeship", "exchange", "admitted", "application", "requirements"]

/-- ASCII letter, the character class of the token regex `[a-zA-Z]+`. -/
def isAsciiLetter (c : Char) : Bool :=
  ('a' ≤ c && c ≤ 'z') || ('A' ≤ c && c ≤ 'Z')

/-- Maximal runs of ASCII letters, as produced by
`re.findall(r"[a-zA-Z]+", lower)`. -/
def asciiTokensAux (cur : List Char) : List Char → List String
  | [] => if cur.isEmpty then [] else [String.mk cur.reverse]
  | c :: cs =>
    if isAsciiLetter c then asciiTokensAux (c :: cur) cs
    else if cur.isEmpty then asciiTokensAux [] cs
    else String.mk cur.reverse :: asciiTokensAux [] cs

def asciiTokens (s : String) : List String := asciiTokensAux [] s.toList

/-- The Turkish-specific accented characters checked by `detect_lang`
(api.py line 268). -/
def turkish_chars : List Char :=
  ['ç', 'ğ', 'ı', 'ö', 'ş', 'ü', 'Ç', 'Ğ', 'İ', 'Ö', 'Ş', 'Ü']

/-- api.py lines 220-272, `detect_lang`. -/
def detect_lang (text : String) : String :=
  if text = "" then "en"
  else if (asciiTokens (pyLower text)).any (fun tok => english_keywords.contains tok) then "en"
  else if text.toList.any (fun c => turkish_chars.contains c) then "tr"
  else "en"

/-! ## api.py: clean_generated_answer (lines 343-354) -/

/-- The cue marker searched for in the lower-cased decoded text. -/
def answerMarker : List Char := "answer:".toList

/-- The cue-stripping half of `clean_generated_answer` (api.py lines
344-349): trim, then drop everything up to and including the first
case-insensitive occurrence of `"answer:"`, trimming again. -/
def afterCue (raw : String) : String :=
  match findSub answerMarker (pyLower (pyStrip raw)).toList with
  | some idx => pyStrip (pyDrop (pyStrip raw) (idx + "answer:".length))
  | none => pyStrip raw

/-- The quote-stripping half of `clean_generated_answer` (api.py lines
351-352): if the text starts with a straight or left-curly double quote and
ends with a straight or right-curly double quote, drop one character from
each end and trim. -/
def stripQuotes (text : String) : String :=
  if (firstChar text = some '"' ∨ firstChar text = some '“')
      ∧ (lastChar text = some '"' ∨ lastChar text = some '”') then
    pyStrip (pyDropRight (pyDrop text 1) 1)
  else text

/-- api.py lines 343-354, `clean_generated_answer`. -/
def clean_generated_answer (raw : String) : String :=
  stripQuotes (afterCue raw)

/-! ## api.py: data model and external collaborators

The embedding model, generator and translators are external collaborators;
they are embedded as structures of abstract total functions.  A collaborator
that failed to load at startup is a `none` in `Components`, exactly like the
`None` globals of `AppComponents` in api.py. -/

/-- A metadata record returned by the vector store, with the five fields
read by `retrieve_context`; `none` models an absent key. -/
structure Meta where
  source : Option String
  page : Option Int
  paragraph : Option Int
  type : Option String
  lang : Option String
deriving DecidableEq

/-- api.py lines 160-165, `SourceInfo`: the record appended to `sources`
(api.py lines 207-215); `source` has already been defaulted to
`"Unknown"`. -/
structure SourceInfo where
  source : String
  page : Option Int
  paragraph : Option Int
  type : Option String
  lang : Option String
deriving DecidableEq

/-- The key tuple `(src, page, paragraph, section_type, lang)` of api.py
line 202, with `src = meta.get("source", "Unknown")`; it carries the same
data as the emitted source record. -/
def metaKey (m : Meta) : SourceInfo :=
  { source := m.source.getD "Unknown", page := m.page,
    paragraph := m.paragraph, type := m.type, lang := m.lang }

/-- Result of one nearest-neighbour query: parallel lists of chunk texts and
metadata records (the `documents` and `metadatas` of the Chroma reply). -/
structure QueryResult where
  documents : List String
  metadatas : List Meta

/-- The vector-store collection handle: nearest-neighbour query from an
embedding and a result count. -/
structure Collection where
  query : List Float → Nat → QueryResult

/-- The sentence-transformer embedding model: text to vector. -/
structure Embedder where
  encode : String → List Float

/-- A seq2seq translation tokenizer: encode text to token ids, decode token
ids back to text (the decoded text as already stripped by api.py line 308 is
produced by `decode` composed with `trim`, applied at the call site). -/
structure MtTokenizer where
  encode : String → List Nat
  decode : List Nat → String

/-- A seq2seq translation model: token ids to token ids. -/
structure MtModel where
  generate : List Nat → List Nat

/-- The generator tokenizer (Qwen): encode prompt, decode output ids. -/
structure GenTokenizer where
  encode : String → List Nat
  decode : List Nat → String

/-- The causal generator model: token ids to token ids (greedy decoding,
deterministic). -/
structure GenModel where
  generate : List Nat → List Nat

/-- api.py lines 38-52, `AppComponents`: the process-wide collaborator
holders, each `None` until (and unless) its load succeeds. -/
structure Components where
  db_collection : Option Collection
  embedding_model : Option Embedder
  generator_tokenizer : Option GenTokenizer
  generator_model : Option GenModel
  translator_tr_en_tokenizer : Option MtTokenizer
  translator_tr_en_model : Option MtModel
  translator_en_tr_tokenizer : Option MtTokenizer
  translator_en_tr_model : Option MtModel

/-! ## api.py: retrieve_context (lines 168-217) -/

/-- The deduplication loop of api.py lines 192-215: iterate the metadata in
order, skip any record whose key tuple was already seen, emit the rest. -/
def buildSourcesAux (seen : List SourceInfo) : List Meta → List SourceInfo
  | [] => []
  | m :: ms =>
    let key := metaKey m
    if key ∈ seen then buildSourcesAux seen ms
    else key :: buildSourcesAux (key :: seen) ms

def buildSources (metas : List Meta) : List SourceInfo := buildSourcesAux [] metas

/-- api.py lines 168-217, `retrieve_context`.  Raises HTTP 500
("API not initialized correctly.") when the collection handle or the
embedding model is absent; otherwise embeds the query, queries the store and
deduplicates the returned metadata into `sources`. -/
def retrieve_context (query : String) (collection : Option Collection)
    (model : Option Embedder) (n_results : Nat := 5) :
    Except String (List String × List SourceInfo) :=
  match collection, model with
  | some coll, some mdl =>
    let query_embedding := mdl.encode query
    let results := coll.query query_embedding n_results
    .ok (results.documents, buildSources results.metadatas)
  | _, _ => .error "API not initialized correctly."

/-! ## api.py: translate_text (lines 275-308) -/

/-- api.py lines 275-308, `translate_text`: identity on empty text, equal
language pair, unsupported pairs and unloaded translators; otherwise runs
the direction's tokenizer/model pair and strips the decoded output. -/
def translate_text (c : Components) (text src_lang tgt_lang : String) : String :=
  if text = "" ∨ src_lang = tgt_lang then text
  else if src_lang = "tr" ∧ tgt_lang = "en" then
    match c.translator_tr_en_tokenizer, c.translator_tr_en_model with
    | some tok, some model => pyStrip (tok.decode (model.generate (tok.encode text)))
    | _, _ => text
  else if src_lang = "en" ∧ tgt_lang = "tr" then
    match c.translator_en_tr_tokenizer, c.translator_en_tr_model with
    | some tok, some model => pyStrip (tok.decode (model.generate (tok.encode text)))
    | _, _ => text
  else text

/-! ## api.py: prompt assembly and generation (lines 311-386) -/

def FALLBACK_MESSAGE : String :=
  "I'm sorry, I don't have that information in my knowledge base."

/-- api.py lines 314-340, `build_prompt`. -/
def build_prompt (query : String) (context_chunks : List String) : String :=
  let context := if context_chunks.isEmpty then ""
    else String.intercalate "\n\n" context_chunks
  let q_lang := detect_lang query
  let language_rule :=
    if q_lang = "en" then
      "The user has asked this question in English, so you MUST answer in clear English.\n"
    else
      "The user has asked this question in Turkish, so you MUST answer in clear Turkish.\n"
  "You are an assistant for Abdullah Gül University (AGU).\n" ++
  "You answer questions ONLY using the information in the context below.\n\n" ++
  "RULES:\n" ++
  "1. Use ONLY the information inside <context> ... </context>.\n" ++
  "2. Do NOT invent new facts.\n" ++
  "3. " ++ language_rule ++
  "4. Answer the question DIRECTLY and CONCISELY in 1-3 sentences.\n" ++
  "5. Do NOT give advice unless the question explicitly asks for advice.\n" ++
  "6. Do NOT talk about the context or about being an AI.\n\n" ++
  "<context>\n" ++
  context ++ "\n" ++
  "</context>\n\n" ++
  "Question: " ++ query ++ "\n" ++
  "Answer:"

/-- api.py lines 357-386, `generate_answer`: raises HTTP 500 when the
generator tokenizer or model is absent, otherwise generates from the prompt
and post-processes the decoded output with `clean_generated_answer`. -/
def generate_answer (prompt : String) (tokenizer : Option GenTokenizer)
    (model : Option GenModel) : Except String String :=
  match tokenizer, model with
  | some tok, some mdl =>
    .ok (clean_generated_answer (tok.decode (mdl.generate (tok.encode prompt))))
  | _, _ => .error "API not initialized correctly."

/-! ## api.py: the /chat pipeline (lines 407-457) -/

/-- The response model of `POST /chat` (api.py lines 396-398). -/
structure ChatResponse where
  answer : String
  sources : List SourceInfo
deriving DecidableEq

/-- The per-chunk translation loop of api.py lines 426-437, as a map over
the retrieved chunks in order. -/
def translatedChunks (c : Components) (question_lang : String)
    (chunks : List String) : List String :=
  chunks.map (fun chunk =>
    let chunk_lang := detect_lang chunk
    if question_lang = "en" ∧ chunk_lang = "tr" then
      translate_text c chunk "tr" "en"
    else if question_lang = "tr" ∧ chunk_lang = "en" then
      translate_text c chunk "en" "tr"
    else chunk)

/-- api.py lines 407-457, `chat_with_rag`: retrieve, short-circuit to the
fallback when no context was found, otherwise translate chunks into the
question's language, build the prompt, generate and answer. -/
def chat_with_rag (c : Components) (query : String) : Except String ChatResponse :=
  match retrieve_context query c.db_collection c.embedding_model with
  | .error e => .error e
  | .ok (context_chunks, sources_raw) =>
    if context_chunks.isEmpty then
      .ok { answer := FALLBACK_MESSAGE, sources := [] }
    else
      let question_lang := detect_lang query
      let translated := translatedChunks c question_lang context_chunks
      let prompt := build_prompt query translated
      match generate_answer prompt c.generator_tokenizer c.generator_model with
      | .error e => .error e
      | .ok answer => .ok { answer := answer, sources := sources_raw }

/-! ## scripts/embed_data.py: the chunker (lines 59-104) -/

/-- scripts/embed_data.py line 16. -/
def CHUNK_SIZE : Nat := 1000

/-- scripts/embed_data.py line 17. -/
def CHUNK_OVERLAP : Nat := 200

/-- An ingestion input record: the fields of the document dicts read by
`chunk_documents`; `none` models an absent key, and an absent or empty
`content` makes the document be skipped. -/
structure Document where
  content : String
  source : Option String
  page : Option Int
  paragraph : Option Int
  type : Option String
  lang : Option String
deriving DecidableEq

/-- A produced chunk (scripts/embed_data.py lines 94-99): text, the
non-null metadata fields (with `source` defaulted to `"Unknown"`), and the
formatted id string. -/
structure Chunk where
  text : String
  metadata : SourceInfo
  id : String
deriving DecidableEq

/-- The metadata dict built at scripts/embed_data.py lines 84-92: `source`
defaulted to `"Unknown"`, null fields dropped. -/
def mkDocMeta (d : Document) : SourceInfo :=
  { source := d.source.getD "Unknown", page := d.page,
    paragraph := d.paragraph, type := d.type, lang := d.lang }

/-- The id f-string of scripts/embed_data.py line 98:
doc index, chunk index within the document, and the run-global counter,
rendered in decimal. -/
def chunkId (doc_idx chunk_idx global_idx : Nat) : String :=
  "doc" ++ Nat.repr doc_idx ++ "_chunk" ++ Nat.repr chunk_idx
    ++ "_global" ++ Nat.repr global_idx

/-- The inner loop of `chunk_documents` (scripts/embed_data.py lines
82-101): one chunk record per split text, with the chunk index and the
global counter both advancing by one per chunk. -/
def mkChunks (meta : SourceInfo) (doc_idx : Nat) :
    Nat → Nat → List String → List Chunk
  | _, _, [] => []
  | chunk_idx, global_idx, t :: ts =>
    { text := t, metadata := meta, id := chunkId doc_idx chunk_idx global_idx }
      :: mkChunks meta doc_idx (chunk_idx + 1) (global_idx + 1) ts

/-- The outer loop of `chunk_documents` (scripts/embed_data.py lines
74-101): enumerate the documents (skipped documents still advance the
document index), thread the run-global counter through. -/
def chunkDocsAux (split : String → List String) :
    Nat → Nat → List Document → List Chunk
  | _, _, [] => []
  | doc_idx, global_idx, d :: ds =>
    if d.content = "" then chunkDocsAux split (doc_idx + 1) global_idx ds
    else
      mkChunks (mkDocMeta d) doc_idx 0 global_idx (split d.content)
        ++ chunkDocsAux split (doc_idx + 1)
            (global_idx + (split d.content).length) ds

/-- scripts/embed_data.py lines 59-104, `chunk_documents`, parameterized by
the text splitter (an external collaborator). -/
def chunk_documents (split : String → List String) (documents : List Document) :
    List Chunk :=
  chunkDocsAux split 0 0 documents

/-- Number of chunks contributed by a document list, for bookkeeping the
run-global counter. -/
def totalChunks (split : String → List String) : List Document → Nat
  | [] => 0
  | d :: ds =>
    (if d.content = "" then 0 else (split d.content).length) + totalChunks split ds

/-- Modelled from the spec: the text splitter itself is langchain's
`RecursiveCharacterTextSplitter`, an external collaborator whose code is not
part of this repository; section 4.1 of the spec describes it as splitting
content "into overlapping windows of at most `chunk_size` characters with
`overlap` characters of repeated text between consecutive windows".  This
window recursion realizes exactly that contract on character lists. -/
def splitWindows (chunkSize overlap : Nat) (cs : List Char) : List (List Char) :=
  if cs.length ≤ chunkSize ∨ chunkSize ≤ overlap then [cs]
  else cs.take chunkSize :: splitWindows chunkSize overlap (cs.drop (chunkSize - overlap))
termination_by cs.length
decreasing_by
  simp only [List.length_drop]
  omega

/-- Modelled from the spec: the splitter contract of section 4.1 lifted to
strings (see `splitWindows`). -/
def splitSpec (chunkSize overlap : Nat) (s : String) : List String :=
  (splitWindows chunkSize overlap s.toList).map String.mk

/-- From the claim's words: concatenate the chunks of one document after
removing the overlapping region repeated at the start of every chunk after
the first. -/
def reconstructOverlap (overlap : Nat) : List String → String
  | [] => ""
  | c :: rest => c ++ String.join (rest.map (fun s => s.drop overlap))

/-- The chunk records contributed by document `d` when it sits right after
the document list `pre` in a run of `chunk_documents`. -/
def docChunks (split : String → List String) (pre : List Document)
    (d : Document) : List Chunk :=
  chunkDocsAux split pre.length (totalChunks split pre) [d]

/-! ## Claim-side reference definitions and witness fixtures -/

/-- From the claim's words (C5): one entry per distinct key tuple, keeping
the first occurrence in retrieval order and suppressing every later record
with an identical tuple. -/
def sourcesSpec : List Meta → List SourceInfo
  | [] => []
  | m :: ms => metaKey m :: sourcesSpec (ms.filter (fun x => metaKey x ≠ metaKey m))
termination_by l => l.length
decreasing_by
  simp only [List.length_cons]
  exact Nat.lt_succ_of_le (List.length_filter_le _ _)

/-- Decimal digit characters of `n`, most significant first: the character
content of `Nat.repr`. -/
def decChars (n : Nat) : List Char :=
  if n = 0 then ['0'] else ((Nat.digits 10 n).map Nat.digitChar).reverse

/-- Numeric value of a big-endian decimal digit string. -/
def decValue (cs : List Char) : Nat :=
  cs.foldl (fun a c => 10 * a + (c.toNat - 48)) 0

/-- The maximal run of decimal digit characters at the end of a string. -/
def digitSuffix (s : String) : List Char :=
  (s.toList.reverse.takeWhile Char.isDigit).reverse

/-- The run-global counter recovered from the tail of a chunk id string. -/
def globalOf (s : String) : Nat := decValue (digitSuffix s)

/-- A concrete metadata record (used by witnesses). -/
def metaA : Meta :=
  { source := some "handbook.pdf", page := some 3, paragraph := some 1,
    type := some "paragraph", lang := some "en" }

/-- A second concrete metadata record with a different key tuple. -/
def metaB : Meta :=
  { source := some "faq.docx", page := some 1, paragraph := none,
    type := some "heading", lang := some "tr" }

/-- One concrete ingestion document (used by witnesses). -/
def testDoc : Document :=
  { content := "AGU was founded in 2010.", source := some "about.txt",
    page := none, paragraph := none, type := none, lang := some "en" }

/-! ## Concrete collaborator instances used by the witnesses -/

/-- A process state in which no collaborator loaded. -/
def emptyComponents : Components :=
  { db_collection := none, embedding_model := none,
    generator_tokenizer := none, generator_model := none,
    translator_tr_en_tokenizer := none, translator_tr_en_model := none,
    translator_en_tr_tokenizer := none, translator_en_tr_model := none }

/-- A process state whose store and embedder are loaded but whose store
always returns zero matches. -/
def emptyStoreComponents : Components :=
  { db_collection := some ⟨fun _ _ => ⟨[], []⟩⟩,
    embedding_model := some ⟨fun _ => []⟩,
    generator_tokenizer := none, generator_model := none,
    translator_tr_en_tokenizer := none, translator_tr_en_model := none,
    translator_en_tr_tokenizer := none, translator_en_tr_model := none }

/-! ## Helper lemmas about translate_text and detect_lang -/

theorem translate_text_tr_en_unloaded (c : Components) (text : String)
    (h : c.translator_tr_en_tokenizer = none ∨ c.translator_tr_en_model = none) :
    translate_text c text "tr" "en" = text := by
  unfold translate_text
  by_cases hte : text = "" ∨ ("tr" : String) = "en"
  · rw [if_pos hte]
  · rw [if_neg hte, if_pos ⟨rfl, rfl⟩]
    rcases h with h | h
    · rw [h]
    · rw [h]
      cases c.translator_tr_en_tokenizer <;> rfl

theorem translate_text_en_tr_unloaded (c : Components) (text : String)
    (h : c.translator_en_tr_tokenizer = none ∨ c.translator_en_tr_model = none) :
    translate_text c text "en" "tr" = text := by
  unfold translate_text
  by_cases hte : text = "" ∨ ("en" : String) = "tr"
  · rw [if_pos hte]
  · rw [if_neg hte, if_neg (fun hc : _ ∧ _ => by simpa using hc.2),
      if_pos ⟨rfl, rfl⟩]
    rcases h with h | h
    · rw [h]
    · rw [h]
      cases c.translator_en_tr_tokenizer <;> rfl

theorem detect_lang_en_or_tr (text : String) :
    detect_lang text = "en" ∨ detect_lang text = "tr" := by
  unfold detect_lang
  by_cases h0 : text = ""
  · rw [if_pos h0]
    exact Or.inl rfl
  · rw [if_neg h0]
    by_cases h1 : (asciiTokens (pyLower text)).any
        (fun tok => english_keywords.contains tok) = true
    · rw [if_pos h1]
      exact Or.inl rfl
    · rw [if_neg h1]
      by_cases h2 : text.toList.any (fun c => turkish_chars.contains c) = true
      · rw [if_pos h2]
        exact Or.inr rfl
      · rw [if_neg h2]
        exact Or.inl rfl

/-! ## C8: translate_text identity cases -/

/-- C8: for every string `text` and every language code `x`,
`translate_text text x x` returns `text` unchanged, including empty text;
likewise any pair other than (tr, en) and (en, tr), and a supported pair
whose translator models are not loaded, return `text` unchanged. -/
theorem claim_C8 (c : Components) (text : String) :
    (∀ x : String, translate_text c text x x = text)
    ∧ (∀ src tgt : String,
        ¬ ((src = "tr" ∧ tgt = "en") ∨ (src = "en" ∧ tgt = "tr")) →
        translate_text c text src tgt = text)
    ∧ ((c.translator_tr_en_tokenizer = none ∨ c.translator_tr_en_model = none) →
        translate_text c text "tr" "en" = text)
    ∧ ((c.translator_en_tr_tokenizer = none ∨ c.translator_en_tr_model = none) →
        translate_text c text "en" "tr" = text) := by
  refine ⟨fun x => ?_, fun src tgt h => ?_,
    translate_text_tr_en_unloaded c text, translate_text_en_tr_unloaded c text⟩
  · unfold translate_text
    rw [if_pos (Or.inr rfl)]
  · unfold translate_text
    by_cases hte : text = "" ∨ src = tgt
    · rw [if_pos hte]
    · rw [if_neg hte, if_neg (fun hc => h (Or.inl hc)),
        if_neg (fun hc => h (Or.inr hc))]

theorem claim_C8_witness :
    translate_text emptyComponents "merhaba" "tr" "tr" = "merhaba"
    ∧ translate_text emptyComponents "" "en" "en" = ""
    ∧ translate_text emptyComponents "hi" "fr" "en" = "hi"
    ∧ translate_text emptyComponents "selam" "tr" "en" = "selam"
    ∧ translate_text emptyComponents "hello" "en" "tr" = "hello" :=
  ⟨(claim_C8 emptyComponents "merhaba").1 "tr",
   (claim_C8 emptyComponents "").1 "en",
   (claim_C8 emptyComponents "hi").2.1 "fr" "en" (by decide),
   (claim_C8 emptyComponents "selam").2.2.1 (Or.inl rfl),
   (claim_C8 emptyComponents "hello").2.2.2 (Or.inl rfl)⟩

/-! ## C9: the NotInitialized error conditions -/

/-- C9: `retrieve_context` fails with the NotInitialized HTTP 500 error if
and only if the store collection handle or the embedding model is absent,
and `generate_answer` fails the same way if and only if the generator
tokenizer or model is absent; with the collaborators present neither error
branch is reachable. -/
theorem claim_C9 :
    (∀ (q : String) (coll : Option Collection) (mdl : Option Embedder) (k : Nat),
      (∃ e, retrieve_context q coll mdl k = .error e) ↔ (coll = none ∨ mdl = none))
    ∧ (∀ (p : String) (tok : Option GenTokenizer) (mdl : Option GenModel),
      (∃ e, generate_answer p tok mdl = .error e) ↔ (tok = none ∨ mdl = none)) := by
  constructor
  · intro q coll mdl k
    cases coll <;> cases mdl <;> simp [retrieve_context]
  · intro p tok mdl
    cases tok <;> cases mdl <;> simp [generate_answer]

theorem claim_C9_witness :
    (∃ e, retrieve_context "What is AGU?" none none 5 = .error e)
    ∧ ¬ (∃ e, generate_answer "prompt"
          (some { encode := fun _ => [], decode := fun _ => "" })
          (some { generate := fun x => x }) = .error e) :=
  ⟨(claim_C9.1 "What is AGU?" none none 5).mpr (Or.inl rfl),
   fun hx => by
    rcases (claim_C9.2 "prompt" _ _).mp hx with h | h <;> exact Option.noConfusion h⟩

/-! ## C4: fallback short-circuit on empty retrieval -/

/-- C4: whenever retrieval returns zero context chunks, `chat_with_rag`
answers exactly the fallback message with an empty sources list, and the
result does not depend on the generator collaborators at all (the generator
is never invoked). -/
theorem claim_C4 (c : Components) (query : String) (srcs : List SourceInfo)
    (h : retrieve_context query c.db_collection c.embedding_model = .ok ([], srcs)) :
    chat_with_rag c query = .ok { answer := FALLBACK_MESSAGE, sources := [] }
    ∧ ∀ (tok : Option GenTokenizer) (mdl : Option GenModel),
        chat_with_rag
            { c with generator_tokenizer := tok, generator_model := mdl } query
          = .ok { answer := FALLBACK_MESSAGE, sources := [] } := by
  constructor
  · unfold chat_with_rag
    rw [h]
    rfl
  · intro tok mdl
    have h2 : retrieve_context query
        ({ c with generator_tokenizer := tok,
                  generator_model := mdl } : Components).db_collection
        ({ c with generator_tokenizer := tok,
                  generator_model := mdl } : Components).embedding_model
        = .ok ([], srcs) := h
    unfold chat_with_rag
    rw [h2]
    rfl

theorem claim_C4_witness :
    chat_with_rag emptyStoreComponents "What is AGU?"
      = .ok { answer := FALLBACK_MESSAGE, sources := [] } :=
  (claim_C4 emptyStoreComponents "What is AGU?" [] rfl).1

/-! ## C2: the detect_lang decision order -/

/-- C2: `detect_lang` returns "en" on the empty string; otherwise "en"
whenever some lower-cased alphabetic token of the text is in the fixed
English keyword set, regardless of Turkish-specific characters; otherwise
"tr" whenever the text contains a Turkish-specific accented character;
otherwise "en". -/
theorem claim_C2 (text : String) :
    (text = "" → detect_lang text = "en")
    ∧ ((∃ tok ∈ asciiTokens (pyLower text), tok ∈ english_keywords) →
        detect_lang text = "en")
    ∧ ((¬ ∃ tok ∈ asciiTokens (pyLower text), tok ∈ english_keywords) →
        (∃ ch ∈ text.toList, ch ∈ turkish_chars) →
        detect_lang text = "tr")
    ∧ ((¬ ∃ tok ∈ asciiTokens (pyLower text), tok ∈ english_keywords) →
        (¬ ∃ ch ∈ text.toList, ch ∈ turkish_chars) →
        detect_lang text = "en") := by
  have hconv : ((asciiTokens (pyLower text)).any
        (fun tok => english_keywords.contains tok) = true)
      ↔ (∃ tok ∈ asciiTokens (pyLower text), tok ∈ english_keywords) := by
    rw [List.any_eq_true]
    constructor
    · rintro ⟨tok, h1, h2⟩
      exact ⟨tok, h1, List.elem_iff.mp h2⟩
    · rintro ⟨tok, h1, h2⟩
      exact ⟨tok, h1, List.elem_iff.mpr h2⟩
  have hconv2 : (text.toList.any (fun c => turkish_chars.contains c) = true)
      ↔ (∃ ch ∈ text.toList, ch ∈ turkish_chars) := by
    rw [List.any_eq_true]
    constructor
    · rintro ⟨ch, h1, h2⟩
      exact ⟨ch, h1, List.elem_iff.mp h2⟩
    · rintro ⟨ch, h1, h2⟩
      exact ⟨ch, h1, List.elem_iff.mpr h2⟩
  refine ⟨fun h0 => ?_, fun hkw => ?_, fun hkw htr => ?_, fun hkw htr => ?_⟩
  · unfold detect_lang
    rw [if_pos h0]
  · have hne : text ≠ "" := by
      rintro rfl
      rcases hkw with ⟨tok, h1, _⟩
      have he : asciiTokens (pyLower "") = [] := rfl
      rw [he] at h1
      exact absurd h1 (List.not_mem_nil tok)
    unfold detect_lang
    rw [if_neg hne, if_pos (hconv.mpr hkw)]
  · have hne : text ≠ "" := by
      rintro rfl
      rcases htr with ⟨ch, h1, _⟩
      exact absurd h1 (List.not_mem_nil ch)
    unfold detect_lang
    rw [if_neg hne, if_neg (fun hc => hkw (hconv.mp hc)),
      if_pos (hconv2.mpr htr)]
  · by_cases h0 : text = ""
    · unfold detect_lang
      rw [if_pos h0]
    · unfold detect_lang
      rw [if_neg h0, if_neg (fun hc => hkw (hconv.mp hc)),
        if_neg (fun hc => htr (hconv2.mp hc))]

theorem claim_C2_witness :
    detect_lang "" = "en"
    ∧ detect_lang "Üniversiteye how başvurulur?" = "en"
    ∧ detect_lang "Başvuru ne zaman?" = "tr"
    ∧ detect_lang "Bonjour le monde" = "en" :=
  ⟨(claim_C2 "").1 rfl,
   (claim_C2 "Üniversiteye how başvurulur?").2.1 (by decide),
   (claim_C2 "Başvuru ne zaman?").2.2.1 (by decide) (by decide),
   (claim_C2 "Bonjour le monde").2.2.2 (by decide) (by decide)⟩

/-! ## C3: per-chunk translation in the chat pipeline -/

theorem translate_step (c : Components) (qLang chunk : String)
    (hq : qLang = "en" ∨ qLang = "tr") :
    (if qLang = "en" ∧ detect_lang chunk = "tr" then
        translate_text c chunk "tr" "en"
      else if qLang = "tr" ∧ detect_lang chunk = "en" then
        translate_text c chunk "en" "tr"
      else chunk)
    = (if detect_lang chunk ≠ qLang then
        translate_text c chunk (detect_lang chunk) qLang
      else chunk) := by
  rcases hq with hq | hq <;> rcases detect_lang_en_or_tr chunk with hc | hc <;>
    rw [hq, hc] <;> simp only [reduceIte] <;> rfl

/-- C3: for every query and retrieved chunk list, the translated chunk list
built by the chat pipeline has the same length and order as the retrieved
chunks, element `i` being `translate_text chunk (detect_lang chunk)
(detect_lang query)` when the two detected languages differ and the chunk
unchanged otherwise; with the translators unavailable every chunk is still
included verbatim. -/
theorem claim_C3 (c : Components) (query : String) (chunks : List String) :
    (translatedChunks c (detect_lang query) chunks).length = chunks.length
    ∧ (∀ i : Nat,
        (translatedChunks c (detect_lang query) chunks)[i]? =
          (chunks[i]?).map (fun chunk =>
            if detect_lang chunk ≠ detect_lang query then
              translate_text c chunk (detect_lang chunk) (detect_lang query)
            else chunk))
    ∧ ((c.translator_tr_en_tokenizer = none ∨ c.translator_tr_en_model = none) →
       (c.translator_en_tr_tokenizer = none ∨ c.translator_en_tr_model = none) →
       translatedChunks c (detect_lang query) chunks = chunks) := by
  refine ⟨?_, fun i => ?_, fun h1 h2 => ?_⟩
  · exact List.length_map chunks _
  · unfold translatedChunks
    rw [List.getElem?_map]
    cases chunks[i]? with
    | none => rfl
    | some chunk =>
      exact congrArg some
        (translate_step c (detect_lang query) chunk (detect_lang_en_or_tr query))
  · unfold translatedChunks
    have hid : ∀ chunk ∈ chunks,
        (if detect_lang query = "en" ∧ detect_lang chunk = "tr" then
            translate_text c chunk "tr" "en"
          else if detect_lang query = "tr" ∧ detect_lang chunk = "en" then
            translate_text c chunk "en" "tr"
          else chunk) = chunk := by
      intro chunk _
      by_cases hA : detect_lang query = "en" ∧ detect_lang chunk = "tr"
      · rw [if_pos hA]
        exact translate_text_tr_en_unloaded c chunk h1
      · rw [if_neg hA]
        by_cases hB : detect_lang query = "tr" ∧ detect_lang chunk = "en"
        · rw [if_pos hB]
          exact translate_text_en_tr_unloaded c chunk h2
        · rw [if_neg hB]
    calc chunks.map _ = chunks.map id := List.map_congr_left hid
    _ = chunks := List.map_id chunks

theorem claim_C3_witness :
    (translatedChunks emptyComponents (detect_lang "How are students admitted?")
        ["Kayıt için başvuru gereklidir.", "Applications open in June."]).length = 2
    ∧ translatedChunks emptyComponents (detect_lang "How are students admitted?")
        ["Kayıt için başvuru gereklidir.", "Applications open in June."]
      = ["Kayıt için başvuru gereklidir.", "Applications open in June."] :=
  ⟨(claim_C3 emptyComponents "How are students admitted?"
      ["Kayıt için başvuru gereklidir.", "Applications open in June."]).1,
   (claim_C3 emptyComponents "How are students admitted?"
      ["Kayıt için başvuru gereklidir.", "Applications open in June."]).2.2
      (Or.inl rfl) (Or.inl rfl)⟩

/-! ## C5: SourceInfo deduplication -/

theorem buildSourcesAux_eq (l : List Meta) (seen : List SourceInfo) :
    buildSourcesAux seen l
      = sourcesSpec (l.filter (fun m => metaKey m ∉ seen)) := by
  induction l generalizing seen with
  | nil =>
    rw [List.filter_nil]
    simp [buildSourcesAux, sourcesSpec]
  | cons m ms ih =>
    by_cases hmem : metaKey m ∈ seen
    · rw [List.filter_cons_of_neg (by simpa using hmem)]
      show (if metaKey m ∈ seen then buildSourcesAux seen ms
        else metaKey m :: buildSourcesAux (metaKey m :: seen) ms) = _
      rw [if_pos hmem, ih seen]
    · rw [List.filter_cons_of_pos (by simpa using hmem)]
      show (if metaKey m ∈ seen then buildSourcesAux seen ms
        else metaKey m :: buildSourcesAux (metaKey m :: seen) ms) = _
      rw [if_neg hmem, ih (metaKey m :: seen), sourcesSpec]
      congr 1
      rw [List.filter_filter]
      congr 1
      apply List.filter_congr
      intro x _
      by_cases h1 : metaKey x = metaKey m
      · simp [h1]
      · by_cases h2 : metaKey x ∈ seen <;> simp [h1, h2]

/-- C5: the sources list built by `retrieve_context` keeps exactly the first
occurrence of each distinct key tuple (source, page, paragraph, type, lang),
suppressing all later records with an identical tuple, in retrieval order; in
particular metadata `[A, A, B]` yields the two sources `[A, B]`. -/
theorem claim_C5 :
    (∀ metas : List Meta, buildSources metas = sourcesSpec metas)
    ∧ buildSources [metaA, metaA, metaB] = [metaKey metaA, metaKey metaB] := by
  constructor
  · intro metas
    rw [buildSources, buildSourcesAux_eq]
    congr 1
    apply List.filter_eq_self.mpr
    intro a _
    simp
  · rfl

/-! ## Correctness of the substring search -/

theorem findSub_none_iff (needle hay : List Char) :
    findSub needle hay = none ↔ ∀ i, ¬ occursAt needle hay i := by
  induction hay with
  | nil =>
    constructor
    · intro hnone i
      unfold findSub at hnone
      by_cases h : List.isPrefixOf needle ([] : List Char) = true
      · rw [if_pos h] at hnone
        exact Option.noConfusion hnone
      · unfold occursAt
        rw [List.drop_nil]
        exact h
    · intro hall
      unfold findSub
      by_cases h : List.isPrefixOf needle ([] : List Char) = true
      · exact absurd h (hall 0)
      · rw [if_neg h]
  | cons c t ih =>
    constructor
    · intro hnone i
      unfold findSub at hnone
      by_cases h : List.isPrefixOf needle (c :: t) = true
      · rw [if_pos h] at hnone
        exact Option.noConfusion hnone
      · rw [if_neg h] at hnone
        have ht : findSub needle t = none := by
          cases hft : findSub needle t with
          | none => rfl
          | some k =>
            rw [hft] at hnone
            exact Option.noConfusion hnone
        cases i with
        | zero => exact h
        | succ j => exact (ih.mp ht) j
    · intro hall
      unfold findSub
      by_cases h : List.isPrefixOf needle (c :: t) = true
      · exact absurd h (hall 0)
      · rw [if_neg h, ih.mpr (fun j => hall (j + 1))]
        rfl

theorem findSub_some (needle hay : List Char) (i : Nat)
    (h : findSub needle hay = some i) :
    occursAt needle hay i ∧ ∀ j, j < i → ¬ occursAt needle hay j := by
  induction hay generalizing i with
  | nil =>
    unfold findSub at h
    by_cases hp : List.isPrefixOf needle ([] : List Char) = true
    · rw [if_pos hp] at h
      have hi := Option.some.inj h
      subst hi
      exact ⟨hp, fun j hj => absurd hj (Nat.not_lt_zero j)⟩
    · rw [if_neg hp] at h
      exact Option.noConfusion h
  | cons c t ih =>
    unfold findSub at h
    by_cases hp : List.isPrefixOf needle (c :: t) = true
    · rw [if_pos hp] at h
      have hi := Option.some.inj h
      subst hi
      exact ⟨hp, fun j hj => absurd hj (Nat.not_lt_zero j)⟩
    · rw [if_neg hp] at h
      cases hft : findSub needle t with
      | none =>
        rw [hft] at h
        exact Option.noConfusion h
      | some k =>
        rw [hft] at h
        have hi : k + 1 = i := Option.some.inj h
        subst hi
        obtain ⟨ho, hmin⟩ := ih k hft
        refine ⟨ho, fun j hj => ?_⟩
        cases j with
        | zero => exact hp
        | succ j2 => exact hmin j2 (Nat.lt_of_succ_lt_succ hj)

theorem findSub_of_min (needle hay : List Char) (i : Nat)
    (hocc : occursAt needle hay i)
    (hmin : ∀ j, j < i → ¬ occursAt needle hay j) :
    findSub needle hay = some i := by
  cases hfs : findSub needle hay with
  | none => exact absurd hocc ((findSub_none_iff needle hay).mp hfs i)
  | some k =>
    obtain ⟨ho, hm⟩ := findSub_some needle hay k hfs
    rcases Nat.lt_trichotomy k i with h | h | h
    · exact absurd ho (hmin k h)
    · rw [h]
    · exact absurd hocc (hm i h)

/-! ## C1: the cue-marker boundary of clean_generated_answer -/

/-- C1 counterexample: the code slices after the FIRST occurrence of
"answer:", not after the last; on a raw text with two occurrences the claim
("keep only what follows the last occurrence", which would give "b") fails. -/
theorem claim_C1_counterexample :
    clean_generated_answer "Answer: a Answer: b" = "a Answer: b"
    ∧ clean_generated_answer "Answer: a Answer: b" ≠ "b" := by
  constructor
  · decide
  · decide

/-- C1 (amended): `clean_generated_answer` trims the raw text and discards
everything up to and including the first case-insensitive occurrence of
"answer:", keeping only what follows (trimmed); if the marker is absent the
whole trimmed text is kept; in both cases one layer of symmetric straight or
curly quotes is then stripped. -/
theorem claim_C1_amended (raw : String) :
    ((∀ i, ¬ occursAt answerMarker (pyLower (pyStrip raw)).toList i) →
      clean_generated_answer raw = stripQuotes (pyStrip raw))
    ∧ (∀ i, occursAt answerMarker (pyLower (pyStrip raw)).toList i →
        (∀ j, j < i → ¬ occursAt answerMarker (pyLower (pyStrip raw)).toList j) →
        clean_generated_answer raw
          = stripQuotes (pyStrip (pyDrop (pyStrip raw) (i + 7)))) := by
  constructor
  · intro hall
    unfold clean_generated_answer afterCue
    rw [(findSub_none_iff _ _).mpr hall]
  · intro i hocc hmin
    unfold clean_generated_answer afterCue
    rw [findSub_of_min _ _ i hocc hmin]
    rfl

theorem claim_C1_witness :
    clean_generated_answer "...context...\nAnswer: \"Paris is the capital.\""
      = "Paris is the capital." := by
  have h := (claim_C1_amended "...context...\nAnswer: \"Paris is the capital.\"").2
    14 (by decide) (by decide)
  exact h.trans (by decide)

/-! ## C10: the quote-stripping step -/

/-- C10 counterexample: after removing the two quote characters the code
also strips surrounding whitespace, so the strip does not remove exactly one
character from each end: quoted text with inner padding loses the padding
too. -/
theorem claim_C10_counterexample :
    clean_generated_answer "\" Paris \"" = "Paris"
    ∧ ("Paris" : String) ≠ " Paris " := by
  constructor
  · decide
  · decide

/-- C10 (amended): whenever the cue-processed trimmed text starts with a
straight double quote or a left curly quote AND ends with a straight double
quote or a right curly quote — the two ends may be of different styles —
`clean_generated_answer` removes exactly one character from each end,
followed by a whitespace trim, and this strip is applied at most once. -/
theorem claim_C10_amended (raw : String)
    (h1 : firstChar (afterCue raw) = some '"' ∨ firstChar (afterCue raw) = some '“')
    (h2 : lastChar (afterCue raw) = some '"' ∨ lastChar (afterCue raw) = some '”') :
    clean_generated_answer raw
      = pyStrip (pyDropRight (pyDrop (afterCue raw) 1) 1) := by
  unfold clean_generated_answer stripQuotes
  rw [if_pos ⟨h1, h2⟩]

theorem claim_C10_witness :
    clean_generated_answer "“Paris\"" = "Paris" := by
  have h := claim_C10_amended "“Paris\"" (by decide) (by decide)
  exact h.trans (by decide)

/-! ## Decimal rendering: Nat.repr produces decChars, injectively -/

theorem toDigitsCore_eq_decChars :
    ∀ (f n : Nat) (l : List Char), n < f →
      Nat.toDigitsCore 10 f n l = decChars n ++ l := by
  intro f
  induction f with
  | zero => exact fun n l h => absurd h (Nat.not_lt_zero n)
  | succ f ih =>
    intro n l h
    simp only [Nat.toDigitsCore]
    by_cases hdiv : n / 10 = 0
    · rw [if_pos hdiv]
      have hn : n < 10 := by omega
      by_cases hn0 : n = 0
      · subst hn0
        rfl
      · unfold decChars
        rw [if_neg hn0,
          Nat.digits_def' (by norm_num : (1 : Nat) < 10) (Nat.pos_of_ne_zero hn0),
          hdiv, Nat.digits_zero, Nat.mod_eq_of_lt hn]
        rfl
    · rw [if_neg hdiv]
      have hn0 : n ≠ 0 := fun h0 => hdiv (by rw [h0])
      have hlt : n / 10 < f :=
        lt_of_lt_of_le (Nat.div_lt_self (Nat.pos_of_ne_zero hn0) (by norm_num))
          (Nat.lt_succ_iff.mp h)
      rw [ih (n / 10) (Nat.digitChar (n % 10) :: l) hlt]
      have key : decChars n = decChars (n / 10) ++ [Nat.digitChar (n % 10)] := by
        unfold decChars
        rw [if_neg hn0, if_neg hdiv,
          Nat.digits_def' (by norm_num : (1 : Nat) < 10) (Nat.pos_of_ne_zero hn0),
          List.map_cons, List.reverse_cons]
      rw [key, List.append_assoc]
      rfl

theorem repr_toList (n : Nat) : (Nat.repr n).toList = decChars n := by
  unfold Nat.repr Nat.toDigits
  rw [toDigitsCore_eq_decChars (n + 1) n [] (Nat.lt_succ_self n), List.append_nil]
  rfl

theorem decValue_aux :
    ∀ (ds : List Nat) (a : Nat), (∀ d ∈ ds, d < 10) →
      List.foldl (fun acc c => 10 * acc + (c.toNat - 48)) a
        ((ds.map Nat.digitChar).reverse)
      = a * 10 ^ ds.length + Nat.ofDigits 10 ds := by
  intro ds
  induction ds with
  | nil =>
    intro a _
    simp [Nat.ofDigits]
  | cons d rest ih =>
    intro a hd
    rw [List.map_cons, List.reverse_cons, List.foldl_append,
      ih a (fun x hx => hd x (List.mem_cons_of_mem d hx))]
    have hval : (Nat.digitChar d).toNat - 48 = d :=
      (by decide : ∀ x, x < 10 → (Nat.digitChar x).toNat - 48 = x) d
        (hd d (List.mem_cons_self d rest))
    show 10 * (a * 10 ^ rest.length + Nat.ofDigits 10 rest)
        + ((Nat.digitChar d).toNat - 48) = _
    rw [hval, Nat.ofDigits_cons, List.length_cons]
    ring

theorem decValue_decChars (n : Nat) : decValue (decChars n) = n := by
  by_cases h0 : n = 0
  · subst h0
    rfl
  · unfold decValue decChars
    rw [if_neg h0,
      decValue_aux (Nat.digits 10 n) 0
        (fun d hd => Nat.digits_lt_base (by norm_num) hd),
      Nat.ofDigits_digits]
    ring

theorem nat_repr_injective {a b : Nat} (h : Nat.repr a = Nat.repr b) : a = b := by
  have ha := repr_toList a
  have hb := repr_toList b
  rw [h] at ha
  calc a = decValue (decChars a) := (decValue_decChars a).symm
  _ = decValue (decChars b) := by rw [← ha, ← hb]
  _ = b := decValue_decChars b

theorem decChars_all_digit (n : Nat) : ∀ c ∈ decChars n, c.isDigit = true := by
  intro c hc
  unfold decChars at hc
  by_cases h0 : n = 0
  · rw [if_pos h0] at hc
    rw [List.mem_singleton.mp hc]
    decide
  · rw [if_neg h0, List.mem_reverse] at hc
    rcases List.mem_map.mp hc with ⟨d, hd, rfl⟩
    exact (by decide : ∀ x, x < 10 → (Nat.digitChar x).isDigit = true) d
      (Nat.digits_lt_base (by norm_num) hd)

/-! ## C6: chunk id uniqueness -/

theorem toList_append (s t : String) : (s ++ t).toList = s.toList ++ t.toList := by
  cases s
  cases t
  rfl

theorem takeWhile_append_all (p : Char → Bool) :
    ∀ (l1 l2 : List Char), (∀ c ∈ l1, p c = true) →
      (l1 ++ l2).takeWhile p = l1 ++ l2.takeWhile p
  | [], _, _ => rfl
  | c :: t, l2, h => by
    rw [List.cons_append, List.takeWhile_cons, h c (List.mem_cons_self c t),
      takeWhile_append_all p t l2 (fun x hx => h x (List.mem_cons_of_mem c hx))]
    rfl

theorem chunkId_toList (i j g : Nat) :
    (chunkId i j g).toList
      = ("doc".toList ++ decChars i ++ "_chunk".toList ++ decChars j
          ++ "_global".toList) ++ decChars g := by
  unfold chunkId
  rw [toList_append, toList_append, toList_append, toList_append, toList_append,
    repr_toList, repr_toList, repr_toList]

theorem digitSuffix_chunkId (i j g : Nat) :
    digitSuffix (chunkId i j g) = decChars g := by
  unfold digitSuffix
  rw [chunkId_toList, List.reverse_append,
    takeWhile_append_all Char.isDigit (decChars g).reverse _
      (fun c hc => decChars_all_digit g c (List.mem_reverse.mp hc))]
  have hA : (("doc".toList ++ decChars i ++ "_chunk".toList ++ decChars j
      ++ "_global".toList)).reverse.takeWhile Char.isDigit = [] := by
    rw [List.reverse_append]
    rfl
  rw [hA, List.append_nil, List.reverse_reverse]

theorem globalOf_chunkId (i j g : Nat) : globalOf (chunkId i j g) = g := by
  unfold globalOf
  rw [digitSuffix_chunkId]
  exact decValue_decChars g

theorem mkChunks_map_globalOf (meta : SourceInfo) (di : Nat) :
    ∀ (ts : List String) (ci g : Nat),
      (mkChunks meta di ci g ts).map (fun c => globalOf c.id)
        = List.range' g ts.length := by
  intro ts
  induction ts with
  | nil => intro ci g; rfl
  | cons t ts ih =>
    intro ci g
    show globalOf (chunkId di ci g)
        :: (mkChunks meta di (ci + 1) (g + 1) ts).map (fun c => globalOf c.id)
      = List.range' g (ts.length + 1)
    rw [globalOf_chunkId, ih (ci + 1) (g + 1), List.range'_succ]

theorem chunkDocsAux_map_globalOf (split : String → List String) :
    ∀ (ds : List Document) (di g : Nat),
      (chunkDocsAux split di g ds).map (fun c => globalOf c.id)
        = List.range' g (totalChunks split ds) := by
  intro ds
  induction ds with
  | nil => intro di g; rfl
  | cons d ds ih =>
    intro di g
    by_cases hc : d.content = ""
    · show (if d.content = "" then chunkDocsAux split (di + 1) g ds
          else _).map (fun c => globalOf c.id) = _
      rw [if_pos hc, ih (di + 1) g, totalChunks, if_pos hc, Nat.zero_add]
    · show (if d.content = "" then chunkDocsAux split (di + 1) g ds
          else mkChunks (mkDocMeta d) di 0 g (split d.content)
            ++ chunkDocsAux split (di + 1) (g + (split d.content).length) ds).map
          (fun c => globalOf c.id) = _
      rw [if_neg hc, List.map_append, mkChunks_map_globalOf,
        ih (di + 1) (g + (split d.content).length), totalChunks, if_neg hc]
      have := List.range'_append g (split d.content).length
        (totalChunks split ds) 1
      rw [Nat.one_mul] at this
      rw [this, Nat.add_comm (totalChunks split ds) (split d.content).length]

/-- C6: in a single run of `chunk_documents`, the produced chunk ids are
pairwise distinct for every input document sequence and every splitter —
in particular even across documents with identical content — because each
id embeds the run-global monotonically increasing counter. -/
theorem claim_C6 (split : String → List String) (documents : List Document) :
    ((chunk_documents split documents).map (fun c => c.id)).Nodup := by
  apply List.Nodup.of_map globalOf
  have key : ((chunk_documents split documents).map (fun c => c.id)).map globalOf
      = List.range' 0 (totalChunks split documents) := by
    rw [List.map_map]
    exact chunkDocsAux_map_globalOf split documents 0 0
  rw [key]
  exact List.nodup_range' 0 (totalChunks split documents)

/-! ## C7: chunking round-trip for short documents -/

theorem chunkDocsAux_append (split : String → List String) :
    ∀ (xs ys : List Document) (di g : Nat),
      chunkDocsAux split di g (xs ++ ys)
        = chunkDocsAux split di g xs
          ++ chunkDocsAux split (di + xs.length) (g + totalChunks split xs) ys := by
  intro xs
  induction xs with
  | nil =>
    intro ys di g
    show chunkDocsAux split di g ys
      = [] ++ chunkDocsAux split (di + 0) (g + totalChunks split []) ys
    rw [List.nil_append, Nat.add_zero]
    rfl
  | cons d xs ih =>
    intro ys di g
    rw [List.cons_append, chunkDocsAux, chunkDocsAux]
    by_cases hc : d.content = ""
    · have e1 : di + 1 + xs.length = di + (d :: xs).length := by
        rw [List.length_cons]
        omega
      have e2 : g + totalChunks split xs = g + totalChunks split (d :: xs) := by
        rw [totalChunks, if_pos hc]
        omega
      rw [if_pos hc, if_pos hc, ih ys (di + 1) g, e1, e2]
    · have e1 : di + 1 + xs.length = di + (d :: xs).length := by
        rw [List.length_cons]
        omega
      have e2 : g + (split d.content).length + totalChunks split xs
          = g + totalChunks split (d :: xs) := by
        rw [totalChunks, if_neg hc]
        omega
      rw [if_neg hc, if_neg hc, ih ys (di + 1) (g + (split d.content).length),
        e1, e2, List.append_assoc]

theorem splitWindows_short (cs : List Char) (h : cs.length ≤ 1000) :
    splitWindows 1000 200 cs = [cs] := by
  unfold splitWindows
  rw [if_pos (Or.inl h)]

theorem splitSpec_short (s : String) (h : s.length < CHUNK_SIZE) :
    splitSpec CHUNK_SIZE CHUNK_OVERLAP s = [s] := by
  have hl : s.toList.length ≤ 1000 := Nat.le_of_lt h
  unfold splitSpec
  show (splitWindows 1000 200 s.toList).map String.mk = [s]
  rw [splitWindows_short s.toList hl]
  rfl

/-- C7: for every run of `chunk_documents` and every document whose content
is shorter than `CHUNK_SIZE`, the chunks produced for that document are a
contiguous segment of the output whose texts, concatenated after removing
the overlapping regions, reconstruct the document's content losslessly. -/
theorem claim_C7 (pre post : List Document) (d : Document)
    (h1 : d.content.length < CHUNK_SIZE) :
    chunk_documents (splitSpec CHUNK_SIZE CHUNK_OVERLAP) (pre ++ d :: post)
      = chunk_documents (splitSpec CHUNK_SIZE CHUNK_OVERLAP) pre
        ++ docChunks (splitSpec CHUNK_SIZE CHUNK_OVERLAP) pre d
        ++ chunkDocsAux (splitSpec CHUNK_SIZE CHUNK_OVERLAP) (pre.length + 1)
            (totalChunks (splitSpec CHUNK_SIZE CHUNK_OVERLAP) pre
              + totalChunks (splitSpec CHUNK_SIZE CHUNK_OVERLAP) [d]) post
    ∧ reconstructOverlap CHUNK_OVERLAP
        ((docChunks (splitSpec CHUNK_SIZE CHUNK_OVERLAP) pre d).map
          (fun c => c.text))
      = d.content := by
  constructor
  · unfold chunk_documents docChunks
    rw [show pre ++ d :: post = pre ++ ([d] ++ post) from rfl,
      chunkDocsAux_append (splitSpec CHUNK_SIZE CHUNK_OVERLAP) pre ([d] ++ post) 0 0,
      chunkDocsAux_append (splitSpec CHUNK_SIZE CHUNK_OVERLAP) [d] post]
    simp only [Nat.zero_add, List.append_assoc, List.length_cons,
      List.length_nil]
  · by_cases hc : d.content = ""
    · have hd : docChunks (splitSpec CHUNK_SIZE CHUNK_OVERLAP) pre d = [] := by
        unfold docChunks
        rw [chunkDocsAux, if_pos hc]
        rfl
      rw [hd, hc]
      rfl
    · have hchunks : docChunks (splitSpec CHUNK_SIZE CHUNK_OVERLAP) pre d
          = [{ text := d.content, metadata := mkDocMeta d,
               id := chunkId pre.length 0
                 (totalChunks (splitSpec CHUNK_SIZE CHUNK_OVERLAP) pre) }] := by
        unfold docChunks
        rw [chunkDocsAux, if_neg hc, splitSpec_short d.content h1]
        rfl
      rw [hchunks]
      show d.content ++ "" = d.content
      exact String.append_empty d.content

theorem claim_C7_witness :
    chunk_documents (splitSpec CHUNK_SIZE CHUNK_OVERLAP) ([] ++ testDoc :: [])
      = chunk_documents (splitSpec CHUNK_SIZE CHUNK_OVERLAP) []
        ++ docChunks (splitSpec CHUNK_SIZE CHUNK_OVERLAP) [] testDoc
        ++ chunkDocsAux (splitSpec CHUNK_SIZE CHUNK_OVERLAP)
            (([] : List Document).length + 1)
            (totalChunks (splitSpec CHUNK_SIZE CHUNK_OVERLAP) []
              + totalChunks (splitSpec CHUNK_SIZE CHUNK_OVERLAP) [testDoc]) []
    ∧ reconstructOverlap CHUNK_OVERLAP
        ((docChunks (splitSpec CHUNK_SIZE CHUNK_OVERLAP) [] testDoc).map
          (fun c => c.text))
      = testDoc.content :=
  claim_C7 [] [] testDoc (by decide)

end AguRag
